import Mathlib

/-!
Verification of the OpenHamClock rig-bridge against its specification.

JavaScript strings are modelled as lists of characters (`JStr`), JS numbers
appearing in protocol positions as `Int`/`Nat` (with `Option Int` standing
for possibly-NaN results of `parseInt`), and the event-driven plugin objects
as explicit state records with pure transition functions, one per source
handler.  Wire writes, callback invocations, emitted events and log lines
are recorded in instrumentation fields of the state so that ordering
properties can be stated.  Console logging that carries no state is not
modelled.
-/

namespace OpenHamClock

/-- JavaScript strings, modelled as lists of characters. -/
abbrev JStr := List Char

/-- Lift a Lean string literal to the JS-string model. -/
def str (s : String) : JStr := s.data

/-- The newline character used by the line-oriented protocols. -/
def nlc : Char := '\n'

/-- Whitespace as recognised by JavaScript String.prototype.trim on the
characters that occur in these protocols. -/
def isJsSpace (c : Char) : Bool :=
  c = ' ' || c = '\t' || c = '\n' || c = '\r' || c = '\x0b' || c = '\x0c'

/-- JS String.prototype.trim. -/
def jsTrim (l : JStr) : JStr :=
  ((l.dropWhile isJsSpace).reverse.dropWhile isJsSpace).reverse

/-- JS String.prototype.split with a single-character separator:
splitting never yields the empty list, and a trailing separator yields a
trailing empty piece. -/
def splitOnChar (sep : Char) : JStr → List JStr
  | [] => [[]]
  | c :: cs =>
      if c = sep then [] :: splitOnChar sep cs
      else
        match splitOnChar sep cs with
        | [] => [[c]]
        | h :: t => (c :: h) :: t

/-- Split a string at the first occurrence of a separator, as
String.prototype.indexOf plus two substring calls do; `none` when the
separator does not occur. -/
def splitFirst (sep : Char) : JStr → Option (JStr × JStr)
  | [] => none
  | c :: cs =>
      if c = sep then some ([], cs)
      else
        match splitFirst sep cs with
        | none => none
        | some (a, b) => some (c :: a, b)

/-- Numeric value of a decimal digit character. -/
def digitVal (c : Char) : Nat := c.toNat - 48

/-- Value of a list of decimal digit characters, most significant first. -/
def digitsToNat (l : JStr) : Nat := l.foldl (fun a c => a * 10 + digitVal c) 0

/-- JS parseInt with the default radix 10: skip leading whitespace, read an
optional sign and then the longest prefix of decimal digits; NaN (here
`none`) when no digit is found. -/
def jsParseInt (s : JStr) : Option Int :=
  match s.dropWhile isJsSpace with
  | '-' :: rest =>
      if rest.takeWhile Char.isDigit = [] then none
      else some (-(digitsToNat (rest.takeWhile Char.isDigit) : Int))
  | '+' :: rest =>
      if rest.takeWhile Char.isDigit = [] then none
      else some (digitsToNat (rest.takeWhile Char.isDigit) : Int)
  | t =>
      if t.takeWhile Char.isDigit = [] then none
      else some (digitsToNat (t.takeWhile Char.isDigit) : Int)

/-- Division-by-ten recursion for the decimal printer, driven by a fuel
argument so that the definition is structurally recursive and reduces in
the kernel. -/
def natToCharsGo : Nat → Nat → JStr
  | 0, _ => []
  | fuel + 1, m =>
      if m < 10 then [Char.ofNat (48 + m)]
      else natToCharsGo fuel (m / 10) ++ [Char.ofNat (48 + m % 10)]

/-- Decimal representation of a natural number, as produced by JS
number-to-string coercion in a template literal. -/
def natToChars (n : Nat) : JStr := natToCharsGo (n + 1) n

namespace Rigctld

/-!
Model of src/rig-bridge/plugins/rigctld.js.  The closure variables of the
factory (`socket`, `queue`, `pending`, `reconnectTimer`, `pollTimer`) and
the shared rig state fields written through `updateState` are collected in
one record.  `wire` records every payload passed to `socket.write`, and
`answered` records, for each line consumed by `handleResponse`, the pending
request it was interpreted as answering — the observable with which the
FIFO pairing property is stated.  `updateState` compares before setting and
otherwise stores the value unchanged, so state fields are written
directly.
-/

/-- State of one rigctld plugin instance together with the shared rig
state fields it writes. -/
structure St where
  socket : Bool
  queue : List JStr
  pending : Option JStr
  polling : Bool
  reconnectDelay : Option Nat
  freq : Int
  mode : JStr
  width : Option Int
  ptt : Bool
  connected : Bool
  lastUpdate : Nat
  wire : List JStr
  answered : List (JStr × JStr)
deriving DecidableEq, Repr

/-- Source function `process`: dispatch the oldest queued request to the
wire, but only when no response is outstanding and the socket is up. -/
def process (s : St) : St :=
  if s.pending.isSome || s.queue.isEmpty || !s.socket then s
  else
    match s.queue with
    | [] => s
    | req :: rest =>
        { s with queue := rest, pending := some req,
                 wire := s.wire ++ [req ++ [nlc]] }

/-- Source function `send`: with no socket the callback receives a
Not-connected error and nothing else happens; otherwise the command is
queued and `process` runs.  The second component is the error delivered to
the callback, if any. -/
def send (s : St) (cmd : JStr) : St × Option JStr :=
  if !s.socket then (s, some (str "Not connected"))
  else (process { s with queue := s.queue ++ [cmd] }, none)

/-- The state-update branches of `handleResponse` for the request `cmd`
answered by `line` (the body between clearing `pending` and the callback
call). -/
def applyUpdate (s : St) (cmd line : JStr) : St :=
  if cmd = str "f" then
    match jsParseInt line with
    | some n => if 0 < n then { s with freq := n } else s
    | none => s
  else if cmd = str "m" then
    match (splitOnChar ' ' line).get? 1 with
    | some w =>
        if w ≠ [] then
          { s with mode := (splitOnChar ' ' line).headD [], width := jsParseInt w }
        else { s with mode := (splitOnChar ' ' line).headD [] }
    | none => { s with mode := (splitOnChar ' ' line).headD [] }
  else if cmd = str "t" then { s with ptt := line = str "1" }
  else s

/-- Source function `handleResponse`: a line is ignored when no request is
pending; otherwise it is interpreted as the answer to the pending request,
state is updated according to that request, `lastUpdate` is stamped and
`process` dispatches the next queued request. -/
def handleResponse (s : St) (line : JStr) (now : Nat) : St :=
  match s.pending with
  | none => s
  | some cmd =>
      let s1 := applyUpdate { s with pending := none } cmd line
      process { s1 with answered := s1.answered ++ [(cmd, line)],
                        lastUpdate := now }

/-- The socket data handler: the chunk is split on newlines and every
non-empty trimmed piece is fed to `handleResponse`.  Note the source keeps
no residual buffer for a final incomplete line. -/
def onData (s : St) (chunk : JStr) (now : Nat) : St :=
  (splitOnChar nlc chunk).foldl
    (fun st l => if jsTrim l = [] then st else handleResponse st (jsTrim l) now) s

/-- The socket close handler: connection marked down, polling stopped,
pending and queued requests discarded, and a reconnect unconditionally
scheduled after the fixed 5000 ms delay. -/
def onClose (s : St) : St :=
  { s with connected := false, socket := false, polling := false,
           pending := none, queue := [], reconnectDelay := some 5000 }

/-- Source function `disconnect`: cancel any scheduled reconnect, stop
polling, destroy the socket and clear the queues.  The plugin keeps no
deliberate-disconnect flag, and destroying the socket makes the runtime
fire the close handler afterwards. -/
def disconnect (s : St) : St :=
  { s with reconnectDelay := none, polling := false, socket := false,
           pending := none, queue := [], connected := false }

/-- Source function `setFreq`: send the one-line command F followed by the
decimal frequency. -/
def setFreq (s : St) (hz : Nat) : St :=
  (send s (str "F " ++ natToChars hz)).1

/-- Source function `setMode`. -/
def setMode (s : St) (mode : JStr) : St :=
  (send s (str "M " ++ mode ++ str " 0")).1

/-- Source function `setPTT`. -/
def setPTT (s : St) (pttOn : Bool) : St :=
  (send s (if pttOn then str "T 1" else str "T 0")).1

/-- A freshly connected, quiescent instance (socket up, nothing queued,
nothing pending), as after the connect callback has run. -/
def conn0 : St :=
  { socket := true, queue := [], pending := none, polling := true,
    reconnectDelay := none, freq := 0, mode := [], width := none,
    ptt := false, connected := true, lastUpdate := 0, wire := [],
    answered := [] }

/-- Submit a list of commands through `send`, ignoring callbacks. -/
def sendAll (s : St) (cmds : List JStr) : St :=
  cmds.foldl (fun st c => (send st c).1) s

/-- Deliver a list of (chunk, arrival time) socket data events. -/
def deliverChunks (s : St) (chunks : List (JStr × Nat)) : St :=
  chunks.foldl (fun st p => onData st p.1 p.2) s

/-- The single-in-flight accounting invariant: the number of requests
written to the wire exceeds the number of answered lines exactly by the
pending request, so at most one request is ever outstanding. -/
def Inflight (s : St) : Prop :=
  s.wire.length = s.answered.length + (if s.pending.isSome then 1 else 0)

/-- A clean protocol response line: non-empty, already trimmed, and free of
newlines. -/
def CleanLine (l : JStr) : Prop :=
  l ≠ [] ∧ jsTrim l = l ∧ nlc ∉ l

instance (s : St) : Decidable (Inflight s) :=
  inferInstanceAs (Decidable (_ = _))

instance (l : JStr) : Decidable (CleanLine l) :=
  inferInstanceAs (Decidable (l ≠ [] ∧ jsTrim l = l ∧ nlc ∉ l))

/-- Join response lines into one wire chunk, each line newline-terminated. -/
def joinLines (ls : List JStr) : JStr :=
  ls.foldr (fun l acc => l ++ nlc :: acc) []

end Rigctld

namespace FlexRadio

/-!
Model of src/rig-control/lib/flexradio.js (class FlexRadioClient).  The
`S`, `M` and `V` line classes only emit events or log and leave the client
fields untouched, so they appear as identity transitions here; `wire`
records every payload passed to `socket.write`.
-/

/-- State of the FlexRadio client object. -/
structure St where
  socket : Bool
  connected : Bool
  handle : Option JStr
  sliceId : Nat
  buffer : JStr
  commandQueue : List (JStr × Bool)
  sequenceNumber : Nat
  pendingCommands : List Nat
  autoReconnect : Bool
  reconnectDelay : Option Nat
  wire : List JStr
deriving DecidableEq, Repr

/-- Source method `sendCommand(cmd, callback)`: when there is no socket or
no handle yet, the command is pushed onto `commandQueue`; otherwise the
sequence counter is incremented and the command written wrapped as
C-seq-bar-cmd-newline, registering the callback under the sequence
number. -/
def sendCommand (s : St) (cmd : JStr) (hasCb : Bool) : St :=
  if !s.socket || !s.connected then
    { s with commandQueue := s.commandQueue ++ [(cmd, hasCb)] }
  else
    { s with sequenceNumber := s.sequenceNumber + 1,
             pendingCommands :=
               if hasCb then s.pendingCommands ++ [s.sequenceNumber + 1]
               else s.pendingCommands,
             wire := s.wire ++
               [str "C" ++ natToChars (s.sequenceNumber + 1) ++ str "|"
                 ++ cmd ++ [nlc]] }

/-- Source method `subscribeToSlice`. -/
def subscribeToSlice (s : St) (sliceId : Nat) : St :=
  sendCommand s (str "sub slice " ++ natToChars sliceId) true

/-- Source method `sendClientIdentification` (with the default client
name). -/
def sendClientIdentification (s : St) : St :=
  sendCommand s (str "client program OpenHamClock") true

/-- Source method `parseResponse`: R-seq-bar-code-bar-message; the pending
callback registered under seq, if any, is removed and invoked. -/
def parseResponse (s : St) (line : JStr) : St :=
  match jsParseInt ((splitOnChar '|' (line.drop 1)).headD []) with
  | some seq =>
      { s with pendingCommands := s.pendingCommands.filter (fun q => (q : Int) != seq) }
  | none => s

/-- Source method `parseLine`: dispatch on the first character.  `H` stores
the handle, marks the client connected and subscribes to the configured
slice; `R` resolves a pending command; `S`, `M` and `V` emit events or log
without touching client state; anything else is ignored. -/
def parseLine (s : St) (line : JStr) : St :=
  if line.head? = some 'H' then
    subscribeToSlice { s with handle := some (line.drop 1), connected := true }
      s.sliceId
  else if line.head? = some 'R' then parseResponse s line
  else if line.head? = some 'S' then s
  else if line.head? = some 'M' then s
  else if line.head? = some 'V' then s
  else s

/-- Source method `handleData`: append to the line buffer, split on
newlines, keep the final (possibly incomplete) piece buffered, and parse
every other non-empty trimmed line. -/
def handleData (s : St) (data : JStr) : St :=
  ((splitOnChar nlc (s.buffer ++ data)).dropLast).foldl
    (fun st l => if jsTrim l = [] then st else parseLine st (jsTrim l))
    { s with buffer := ((splitOnChar nlc (s.buffer ++ data)).getLast?).getD [] }

/-- Source method `handleDisconnect`: clear connection state and schedule a
5000 ms reconnect unless auto-reconnect was switched off. -/
def handleDisconnect (s : St) : St :=
  if s.autoReconnect then
    { s with connected := false, handle := none, socket := false,
             pendingCommands := [], reconnectDelay := some 5000 }
  else
    { s with connected := false, handle := none, socket := false,
             pendingCommands := [] }

/-- Source method `disconnect`: switch auto-reconnect off, cancel a
scheduled reconnect and destroy the socket. -/
def disconnect (s : St) : St :=
  { s with autoReconnect := false, reconnectDelay := none, socket := false }

/-- A client whose TCP connection is established but which has not yet
received its handle (the state in which `sendClientIdentification` runs). -/
def conn0 : St :=
  { socket := true, connected := false, handle := none, sliceId := 0,
    buffer := [], commandQueue := [], sequenceNumber := 0,
    pendingCommands := [], autoReconnect := true, reconnectDelay := none,
    wire := [] }

end FlexRadio

namespace TCI

/-!
Model of the TCI WebSocket client (class TCIClient).  Emitted events and
informational console logs are recorded in instrumentation lists so the
claims about which inbound commands update state can be stated.
-/

/-- Events emitted by the client. -/
inductive Ev where
  | protocolEv (v : Option JStr)
  | deviceEv (v : Option JStr)
  | frequency (f : Option Int)
  | modeEv (m : Option JStr)
  | ptt (b : Bool)
deriving DecidableEq, Repr

/-- State of the TCI client relevant to inbound command handling. -/
structure St where
  trx : Nat
  vfo : Nat
  protocolVersion : Option JStr
  deviceName : Option JStr
  events : List Ev
  logs : List (JStr × List JStr)
deriving DecidableEq, Repr

/-- parseInt applied to the i-th argument; a missing argument coerces to
NaN exactly as parseInt(undefined) does. -/
def parseIntAt (args : List JStr) (i : Nat) : Option Int :=
  match args.get? i with
  | some a => jsParseInt a
  | none => none

/-- Source method `handleCommand`: the switch over recognised inbound
commands.  VFO updates only for the configured trx and vfo, MODULATION and
TRX only for the configured trx; TRX_COUNT, VFO_LIMITS and
MODULATIONS_LIST are logged only; unknown commands are ignored. -/
def handleCommand (s : St) (command : JStr) (args : List JStr) : St :=
  if command = str "PROTOCOL" then
    { s with protocolVersion := args.head?,
             logs := s.logs ++ [(command, args)],
             events := s.events ++ [Ev.protocolEv args.head?] }
  else if command = str "DEVICE" then
    { s with deviceName := args.head?,
             logs := s.logs ++ [(command, args)],
             events := s.events ++ [Ev.deviceEv args.head?] }
  else if command = str "VFO" then
    if parseIntAt args 0 = some (s.trx : Int) ∧ parseIntAt args 1 = some (s.vfo : Int) then
      { s with events := s.events ++ [Ev.frequency (parseIntAt args 2)] }
    else s
  else if command = str "MODULATION" then
    if parseIntAt args 0 = some (s.trx : Int) then
      { s with events := s.events ++ [Ev.modeEv (args.get? 1)] }
    else s
  else if command = str "TRX" then
    if parseIntAt args 0 = some (s.trx : Int) then
      { s with events := s.events ++ [Ev.ptt (args.get? 1 = some (str "true"))] }
    else s
  else if command = str "TRX_COUNT" then { s with logs := s.logs ++ [(command, args)] }
  else if command = str "VFO_LIMITS" then { s with logs := s.logs ++ [(command, args)] }
  else if command = str "MODULATIONS_LIST" then { s with logs := s.logs ++ [(command, args)] }
  else s

/-- Source method `parseMessage`: trim, drop one trailing semicolon, split
command from comma-separated arguments at the first colon (no colon means
an argument-less command). -/
def parseMessage (s : St) (message : JStr) : St :=
  match splitFirst ':'
      (if (jsTrim message).getLast? = some ';' then (jsTrim message).dropLast
       else jsTrim message) with
  | none =>
      handleCommand s
        (if (jsTrim message).getLast? = some ';' then (jsTrim message).dropLast
         else jsTrim message) []
  | some (command, argsString) =>
      handleCommand s command (splitOnChar ',' argsString)

/-- Source method `handleMessage`: one WebSocket payload may carry several
newline-separated commands, parsed independently; empty pieces are
skipped. -/
def handleMessage (s : St) (message : JStr) : St :=
  (splitOnChar nlc (jsTrim message)).foldl
    (fun st c => if c ≠ [] then parseMessage st c else st) s

end TCI

namespace Usb

/-!
Model of the ASCII receive framing of the USB serial plugin
(processAsciiBuffer in plugins/usb/index.js), including the Yaesu
leading-garbage recovery scan over the known two-letter command
prefixes.
-/

/-- The known Yaesu CAT response prefixes (source constant YAESU_CMDS). -/
def YAESU_CMDS : List JStr :=
  [str "IF", str "FA", str "FB", str "MD", str "TX", str "RX", str "AI",
   str "ID", str "PS", str "?;"]

/-- The scan in processAsciiBuffer: the first position whose next two
characters, upper-cased, form a known command prefix.  Positions range
over pairs lying fully inside the unit, matching the source loop bound
i less-or-equal idx minus 2. -/
def findCmdStart : JStr → Option Nat
  | a :: b :: rest =>
      if [a.toUpper, b.toUpper] ∈ YAESU_CMDS then some 0
      else (findCmdStart (b :: rest)).map (· + 1)
  | _ => none

/-- The start offset used for an extracted unit: for the Yaesu family the
garbage-recovery scan (position 0 when no known prefix occurs), otherwise
always 0. -/
def startOf (isYaesu : Bool) (unit : JStr) : Nat :=
  if isYaesu then (findCmdStart unit).getD 0 else 0

/-- The processAsciiBuffer loop, processed character by character: a
semicolon closes the accumulated unit, which is emitted after the Yaesu
start-offset drop; when the buffer is exhausted the leftover text stays
buffered, hard-capped at 1000 characters (keeping the last 200). -/
def processAsciiBufferAux (isYaesu : Bool) : JStr → JStr → List JStr × JStr
  | acc, [] =>
      ([], if acc.reverse.length > 1000 then
             acc.reverse.drop (acc.reverse.length - 200)
           else acc.reverse)
  | acc, c :: cs =>
      if c = ';' then
        ((acc.reverse.drop (startOf isYaesu acc.reverse))
            :: (processAsciiBufferAux isYaesu [] cs).1,
         (processAsciiBufferAux isYaesu [] cs).2)
      else processAsciiBufferAux isYaesu (c :: acc) cs

/-- Source function `processAsciiBuffer`: extract every complete
semicolon-terminated unit from the receive buffer, returning the emitted
responses in order together with the remaining buffer. -/
def processAsciiBuffer (isYaesu : Bool) (rxBuffer : JStr) : List JStr × JStr :=
  processAsciiBufferAux isYaesu [] rxBuffer

/-- Build a receive buffer from complete units and a trailing
fragment. -/
def joinUnits (units : List JStr) (rest : JStr) : JStr :=
  (units.map (fun u => u ++ [';'])).flatten ++ rest

end Usb

namespace Server

/-!
Model of the command endpoints of server.js (app.post for freq, mode and
ptt) and of the status snapshot read.  A request body field is an Option
(absent = undefined); JS truthiness decides validation, exactly as the
source tests `!freq`, `!mode` and `ptt`.
-/

/-- Response body: either the success JSON or an error JSON. -/
inductive RespBody where
  | success
  | errorMsg (msg : JStr)
deriving DecidableEq, Repr

/-- An HTTP response: status code plus body. -/
structure HttpResp where
  status : Nat
  body : RespBody
deriving DecidableEq, Repr

/-- JS truthiness of a number field (0 and absent are falsy). -/
def truthyNum : Option Int → Bool
  | some n => n != 0
  | none => false

/-- JS truthiness of a string field (empty and absent are falsy). -/
def truthyStr : Option JStr → Bool
  | some m => m != ([] : JStr)
  | none => false

/-- JS truthiness of a boolean field. -/
def truthyBool : Option Bool → Bool
  | some b => b
  | none => false

/-- POST /freq: 400 when the freq field is falsy, otherwise dispatch
setFreq and answer success.  The second component is the frequency
dispatched to the active plugin, if any. -/
def postFreq (freq : Option Int) : HttpResp × Option Int :=
  if !truthyNum freq then (⟨400, RespBody.errorMsg (str "Missing freq")⟩, none)
  else (⟨200, RespBody.success⟩, freq)

/-- POST /mode: 400 when the mode field is falsy, otherwise dispatch
setMode and answer success. -/
def postMode (mode : Option JStr) : HttpResp × Option JStr :=
  if !truthyStr mode then (⟨400, RespBody.errorMsg (str "Missing mode")⟩, none)
  else (⟨200, RespBody.success⟩, mode)

/-- POST /ptt: 403 when the requested ptt value is truthy while the
configuration gate pttEnabled is off; otherwise dispatch setPTT with the
double-negated body value and answer success. -/
def postPtt (pttEnabled : Bool) (ptt : Option Bool) : HttpResp × Option Bool :=
  if truthyBool ptt && !pttEnabled then
    (⟨403, RespBody.errorMsg (str "PTT disabled in configuration")⟩, none)
  else (⟨200, RespBody.success⟩, some (truthyBool ptt))

/-- The GET /status JSON shape. -/
structure StatusJson where
  connected : Bool
  freq : Int
  mode : JStr
  width : Option Int
  ptt : Bool
  timestamp : Nat
deriving DecidableEq, Repr

/-- GET /status as read from the shared state written by the rigctld
plugin. -/
def statusOf (s : Rigctld.St) : StatusJson :=
  ⟨s.connected, s.freq, s.mode, s.width, s.ptt, s.lastUpdate⟩

end Server

namespace Registry

/-!
Model of PluginRegistry.switchPlugin.  Plugin instances are abstracted by
a behaviour record saying which of their lifecycle calls throw; every
throwing call site sits inside a try/catch in the source, which is why
`switchPlugin` is a total function here.  The call log records the order
of disconnect/create/connect invocations.
-/

/-- Which lifecycle calls of a plugin instance throw. -/
structure PluginBehavior where
  createThrows : Bool
  connectThrows : Bool
  disconnectThrows : Bool
deriving DecidableEq, Repr

/-- A live plugin instance: its id and its behaviour. -/
structure Inst where
  pid : JStr
  behavior : PluginBehavior
deriving DecidableEq, Repr

/-- Lifecycle calls made by the registry. -/
inductive CallEv where
  | disconnectCall (pid : JStr)
  | createCall (pid : JStr)
  | connectCall (pid : JStr)
deriving DecidableEq, Repr

/-- Registry state: descriptor table, the at-most-one active instance and
its id, plus the lifecycle call log. -/
structure St where
  descriptors : List (JStr × PluginBehavior)
  activeInstance : Option Inst
  activeId : Option JStr
  calls : List CallEv
deriving DecidableEq, Repr

/-- Descriptor lookup (the source Map.get on `_descriptors`). -/
def lookupDescriptor (ds : List (JStr × PluginBehavior)) (id : JStr) :
    Option PluginBehavior :=
  match ds.find? (fun p => p.1 == id) with
  | some p => some p.2
  | none => none

/-- The first half of `switchPlugin`: if an instance is active, call its
`disconnect()` inside try/catch (an exception is logged and swallowed, so
the transition is total either way) and clear the active reference. -/
def disconnectActive (r : St) : St :=
  match r.activeInstance with
  | some inst =>
      { r with activeInstance := none, activeId := none,
               calls := r.calls ++ [CallEv.disconnectCall inst.pid] }
  | none => r

/-- Source method `switchPlugin(id)`: disconnect any active instance and
clear the active reference; stop if the id is falsy or the literal none;
fail leaving no active plugin on an unknown id; otherwise create and
connect the new instance, where a throw from the factory or from connect
is caught and leaves no active plugin. -/
def switchPlugin (r : St) (id : JStr) : St :=
  if id = [] || id = str "none" then disconnectActive r
  else
    match lookupDescriptor (disconnectActive r).descriptors id with
    | none => disconnectActive r
    | some beh =>
        if beh.createThrows then
          { disconnectActive r with
            calls := (disconnectActive r).calls ++ [CallEv.createCall id],
            activeInstance := none, activeId := none }
        else if beh.connectThrows then
          { disconnectActive r with
            calls := (disconnectActive r).calls
              ++ [CallEv.createCall id, CallEv.connectCall id],
            activeInstance := none, activeId := none }
        else
          { disconnectActive r with
            activeInstance := some ⟨id, beh⟩, activeId := some id,
            calls := (disconnectActive r).calls
              ++ [CallEv.createCall id, CallEv.connectCall id] }

end Registry

/-!
Theorems.  First the string-level lemmas, then the rigctld protocol
lemmas, then one theorem per specification claim (with witnesses and
counterexamples where required).
-/

theorem splitOnChar_cons (sep c : Char) (cs : JStr) :
    splitOnChar sep (c :: cs)
      = if c = sep then [] :: splitOnChar sep cs
        else
          match splitOnChar sep cs with
          | [] => [[c]]
          | h :: t => (c :: h) :: t := rfl

/-- Properties of the ten decimal digit characters needed to parse
decimal representations: they are digits, not whitespace, not a sign, not a
newline and not a semicolon. -/
theorem digit_props (c : Char) (hc : c ∈ str "0123456789") :
    c.isDigit = true ∧ isJsSpace c = false ∧ c ≠ '-' ∧ c ≠ '+' ∧
    c ≠ nlc ∧ c ≠ ';' := by
  have h10 : ∀ d ∈ str "0123456789", d.isDigit = true ∧ isJsSpace d = false ∧
      d ≠ '-' ∧ d ≠ '+' ∧ d ≠ nlc ∧ d ≠ ';' := by decide
  exact h10 c hc

theorem digitsToNat_append (a : JStr) (c : Char) :
    digitsToNat (a ++ [c]) = digitsToNat a * 10 + digitVal c := by
  simp [digitsToNat, List.foldl_append]

/-- Each character of the fuelled decimal printer output is a decimal
digit character, for adequate fuel. -/
theorem natToCharsGo_mem : ∀ (fuel m : Nat), m < fuel →
    ∀ c ∈ natToCharsGo fuel m, c ∈ str "0123456789" := by
  intro fuel
  induction fuel with
  | zero => intro m hm; omega
  | succ f ih =>
      intro m hm c hc
      simp only [natToCharsGo] at hc
      by_cases h10 : m < 10
      · rw [if_pos h10] at hc
        simp at hc
        subst hc
        interval_cases m <;> decide
      · rw [if_neg h10] at hc
        have hdiv : m / 10 < m := Nat.div_lt_self (by omega) (by omega)
        rcases List.mem_append.1 hc with h1 | h2
        · exact ih (m / 10) (by omega) c h1
        · simp at h2
          subst h2
          have hmod : m % 10 < 10 := Nat.mod_lt _ (by omega)
          interval_cases hh : m % 10 <;> decide

theorem natToCharsGo_ne_nil : ∀ (fuel m : Nat), m < fuel →
    natToCharsGo fuel m ≠ [] := by
  intro fuel
  induction fuel with
  | zero => intro m hm; omega
  | succ f ih =>
      intro m hm
      simp only [natToCharsGo]
      by_cases h10 : m < 10
      · rw [if_pos h10]
        simp
      · rw [if_neg h10]
        simp

/-- Each character of the decimal representation is a decimal digit
character. -/
theorem natToChars_mem (n : Nat) : ∀ c ∈ natToChars n, c ∈ str "0123456789" :=
  natToCharsGo_mem (n + 1) n (Nat.lt_succ_self n)

theorem natToChars_ne_nil (n : Nat) : natToChars n ≠ [] :=
  natToCharsGo_ne_nil (n + 1) n (Nat.lt_succ_self n)

theorem natToChars_length_pos (n : Nat) : 0 < (natToChars n).length := by
  cases h : natToChars n with
  | nil => exact absurd h (natToChars_ne_nil n)
  | cons c t => simp

/-- The numeric value of a digit character written for `m < 10`. -/
theorem digitVal_ofNat (m : Nat) (h : m < 10) :
    digitVal (Char.ofNat (48 + m)) = m := by
  interval_cases m <;> rfl

/-- Reading back the fuelled decimal printer output recovers the number,
for adequate fuel. -/
theorem digitsToNat_natToCharsGo : ∀ (fuel m : Nat), m < fuel →
    digitsToNat (natToCharsGo fuel m) = m := by
  intro fuel
  induction fuel with
  | zero => intro m hm; omega
  | succ f ih =>
      intro m hm
      simp only [natToCharsGo]
      by_cases h10 : m < 10
      · rw [if_pos h10]
        simp [digitsToNat, digitVal_ofNat m h10]
      · rw [if_neg h10]
        have hdiv : m / 10 < m := Nat.div_lt_self (by omega) (by omega)
        rw [digitsToNat_append, ih (m / 10) (by omega),
          digitVal_ofNat (m % 10) (Nat.mod_lt _ (by omega))]
        omega

/-- Reading back the decimal representation recovers the number. -/
theorem digitsToNat_natToChars (n : Nat) : digitsToNat (natToChars n) = n :=
  digitsToNat_natToCharsGo (n + 1) n (Nat.lt_succ_self n)

/-- A list all of whose characters are digits is its own takeWhile-isDigit
prefix. -/
theorem takeWhile_isDigit_all (l : JStr) (h : ∀ x ∈ l, Char.isDigit x = true) :
    l.takeWhile Char.isDigit = l := by
  induction l with
  | nil => rfl
  | cons a s ih =>
    rw [List.takeWhile_cons, h a (by simp)]
    simp [ih fun x hx => h x (by simp [hx])]

/-- JS parseInt of the decimal representation of a natural number yields
that number. -/
theorem jsParseInt_natToChars (n : Nat) : jsParseInt (natToChars n) = some (n : Int) := by
  obtain ⟨c, t, heq⟩ : ∃ c t, natToChars n = c :: t := by
    cases h : natToChars n with
    | nil => exact absurd h (natToChars_ne_nil n)
    | cons c t => exact ⟨c, t, rfl⟩
  have hcd := digit_props c (natToChars_mem n c (heq ▸ List.mem_cons_self c t))
  have hall : ∀ x ∈ natToChars n, x.isDigit = true := fun x hx =>
    (digit_props x (natToChars_mem n x hx)).1
  have hnospace : (natToChars n).dropWhile isJsSpace = natToChars n := by
    rw [heq, List.dropWhile_cons, hcd.2.1]
    simp
  have htake : (natToChars n).takeWhile Char.isDigit = natToChars n :=
    takeWhile_isDigit_all _ hall
  unfold jsParseInt
  rw [hnospace, heq]
  split
  · next habs =>
    injection habs with h1 _
    exact absurd h1 hcd.2.2.1
  · next habs =>
    injection habs with h1 _
    exact absurd h1 hcd.2.2.2.1
  · rw [← heq, htake]
    simp [natToChars_ne_nil n, digitsToNat_natToChars]

theorem splitOnChar_ne_nil (sep : Char) (l : JStr) : splitOnChar sep l ≠ [] := by
  cases l with
  | nil => simp [splitOnChar]
  | cons c cs =>
      rw [splitOnChar_cons]
      by_cases hc : c = sep
      · simp [hc]
      · simp only [if_neg hc]
        cases splitOnChar sep cs <;> simp

/-- Splitting at the first separator occurrence. -/
theorem splitOnChar_append (sep : Char) (l rest : JStr) (hl : sep ∉ l) :
    splitOnChar sep (l ++ sep :: rest) = l :: splitOnChar sep rest := by
  induction l with
  | nil => simp [splitOnChar]
  | cons a t ih =>
      have ha : a ≠ sep := by
        intro h
        exact hl (h ▸ List.mem_cons_self a t)
      have ht : sep ∉ t := fun h => hl (List.mem_cons_of_mem a h)
      rw [List.cons_append, splitOnChar_cons, ih ht, if_neg ha]

/-- Splitting a chunk made of newline-terminated lines recovers the lines
plus one final empty piece. -/
theorem splitOnChar_joinLines (ls : List JStr) (h : ∀ l ∈ ls, nlc ∉ l) :
    splitOnChar nlc (Rigctld.joinLines ls) = ls ++ [[]] := by
  induction ls with
  | nil => simp [Rigctld.joinLines, splitOnChar]
  | cons l t ih =>
      have hl : nlc ∉ l := h l (List.mem_cons_self l t)
      have ht : ∀ x ∈ t, nlc ∉ x := fun x hx => h x (List.mem_cons_of_mem l hx)
      show splitOnChar nlc (l ++ nlc :: Rigctld.joinLines t) = (l :: t) ++ [[]]
      rw [splitOnChar_append nlc l _ hl, ih ht]
      rfl

/-- A clean line passes the trim-and-drop-empty filter unchanged. -/
theorem jsTrim_clean (l : JStr) (h : Rigctld.CleanLine l) : jsTrim l = l := h.2.1

namespace Rigctld

theorem process_pending_some (s : St) (h : s.pending.isSome) : process s = s := by
  simp [process, h]

theorem process_queue_nil (s : St) (h : s.queue = []) : process s = s := by
  simp [process, h]

theorem process_step (s : St) (c : JStr) (rest : List JStr)
    (hp : s.pending = none) (hq : s.queue = c :: rest) (hs : s.socket = true) :
    process s = { s with queue := rest, pending := some c,
                         wire := s.wire ++ [c ++ [nlc]] } := by
  simp [process, hp, hq, hs]

theorem applyUpdate_queue (s : St) (cmd line : JStr) :
    (applyUpdate s cmd line).queue = s.queue := by
  unfold applyUpdate
  repeat' split
  all_goals rfl

theorem applyUpdate_pending (s : St) (cmd line : JStr) :
    (applyUpdate s cmd line).pending = s.pending := by
  unfold applyUpdate
  repeat' split
  all_goals rfl

theorem applyUpdate_socket (s : St) (cmd line : JStr) :
    (applyUpdate s cmd line).socket = s.socket := by
  unfold applyUpdate
  repeat' split
  all_goals rfl

theorem applyUpdate_wire (s : St) (cmd line : JStr) :
    (applyUpdate s cmd line).wire = s.wire := by
  unfold applyUpdate
  repeat' split
  all_goals rfl

theorem applyUpdate_answered (s : St) (cmd line : JStr) :
    (applyUpdate s cmd line).answered = s.answered := by
  unfold applyUpdate
  repeat' split
  all_goals rfl

/-- One response line consumed while a request is pending: the line is
logged as answering exactly that request, and the next queued request (if
any) becomes pending and is written to the wire. -/
theorem handleResponse_step (s : St) (cmd line : JStr) (now : Nat)
    (hp : s.pending = some cmd) (hs : s.socket = true) :
    (handleResponse s line now).answered = s.answered ++ [(cmd, line)] ∧
    (handleResponse s line now).socket = true ∧
    (s.queue = [] →
      (handleResponse s line now).pending = none ∧
      (handleResponse s line now).queue = [] ∧
      (handleResponse s line now).wire = s.wire) ∧
    (∀ c2 rest, s.queue = c2 :: rest →
      (handleResponse s line now).pending = some c2 ∧
      (handleResponse s line now).queue = rest ∧
      (handleResponse s line now).wire = s.wire ++ [c2 ++ [nlc]]) := by
  have hqA := applyUpdate_queue { s with pending := none } cmd line
  have hpA := applyUpdate_pending { s with pending := none } cmd line
  have hsA := applyUpdate_socket { s with pending := none } cmd line
  have hwA := applyUpdate_wire { s with pending := none } cmd line
  have haA := applyUpdate_answered { s with pending := none } cmd line
  unfold handleResponse
  rw [hp]
  simp only
  set A := applyUpdate { s with pending := none } cmd line with hA
  set B : St := { A with answered := A.answered ++ [(cmd, line)],
                         lastUpdate := now } with hB
  have hBp : B.pending = none := by rw [hB]; simpa using hpA
  have hBs : B.socket = true := by rw [hB]; simp; rw [hsA]; exact hs
  have hBq : B.queue = s.queue := by rw [hB]; simpa using hqA
  have hBw : B.wire = s.wire := by rw [hB]; simpa using hwA
  have hBa : B.answered = s.answered ++ [(cmd, line)] := by
    rw [hB]; simp; rw [haA]
  refine ⟨?_, ?_, ?_, ?_⟩
  · cases hq : s.queue with
    | nil =>
        rw [process_queue_nil B (hBq.trans hq)]
        exact hBa
    | cons c2 rest =>
        rw [process_step B c2 rest hBp (hBq.trans hq) hBs]
        simpa using hBa
  · cases hq : s.queue with
    | nil =>
        rw [process_queue_nil B (hBq.trans hq)]
        exact hBs
    | cons c2 rest =>
        rw [process_step B c2 rest hBp (hBq.trans hq) hBs]
        simpa using hBs
  · intro hq
    rw [process_queue_nil B (hBq.trans hq)]
    exact ⟨hBp, hBq.trans hq, hBw⟩
  · intro c2 rest hq
    rw [process_step B c2 rest hBp (hBq.trans hq) hBs]
    refine ⟨rfl, rfl, ?_⟩
    show B.wire ++ [c2 ++ [nlc]] = s.wire ++ [c2 ++ [nlc]]
    rw [hBw]

/-- Delivering a run of response lines one by one while requests are
pending: each line answers the oldest pending request, in order, and the
remaining requests stay queued. -/
theorem deliver_lines (lines : List JStr) :
    ∀ (s : St) (cmd : JStr) (now : Nat),
    s.pending = some cmd → s.socket = true →
    lines.length ≤ s.queue.length + 1 →
    (lines.foldl (fun st l => handleResponse st l now) s).answered
        = s.answered ++ ((cmd :: s.queue).zip lines) ∧
    (lines.foldl (fun st l => handleResponse st l now) s).socket = true ∧
    (((cmd :: s.queue).drop lines.length = [] →
      (lines.foldl (fun st l => handleResponse st l now) s).pending = none ∧
      (lines.foldl (fun st l => handleResponse st l now) s).queue = []) ∧
     (∀ c2 rest, (cmd :: s.queue).drop lines.length = c2 :: rest →
      (lines.foldl (fun st l => handleResponse st l now) s).pending = some c2 ∧
      (lines.foldl (fun st l => handleResponse st l now) s).queue = rest)) := by
  induction lines with
  | nil =>
      intro s cmd now hp hs _
      refine ⟨by simp, hs, ?_, ?_⟩
      · intro h
        simp at h
      · intro c2 rest h
        simp at h
        exact ⟨h.1 ▸ hp, h.2 ▸ rfl⟩
  | cons l ls ih =>
      intro s cmd now hp hs hlen
      obtain ⟨ha1, hs1, hnil1, hcons1⟩ := handleResponse_step s cmd l now hp hs
      cases hq : s.queue with
      | nil =>
          have hls : ls = [] := by
            rw [hq] at hlen
            simpa using hlen
          subst hls
          obtain ⟨hpn, hqn, _⟩ := hnil1 hq
          refine ⟨?_, ?_, ?_, ?_⟩
          · simp [ha1]
          · simpa using hs1
          · intro _
            exact ⟨hpn, hqn⟩
          · intro c2 rest h
            simp at h
      | cons c2 rest =>
          obtain ⟨hp1, hq1, _⟩ := hcons1 c2 rest hq
          have hlen1 : ls.length ≤ (handleResponse s l now).queue.length + 1 := by
            rw [hq1]
            rw [hq] at hlen
            simp at hlen ⊢
            omega
          obtain ⟨ihA, ihS, ihNil, ihCons⟩ := ih (handleResponse s l now) c2 now hp1 hs1 hlen1
          refine ⟨?_, ihS, ?_, ?_⟩
          · rw [show (List.foldl (fun st l => handleResponse st l now) s (l :: ls))
                = List.foldl (fun st l => handleResponse st l now)
                    (handleResponse s l now) ls from rfl, ihA, ha1, hq1]
            simp [List.zip_cons_cons]
          · intro h
            apply ihNil
            rw [hq1]
            simpa using h
          · intro c3 rest3 h
            apply ihCons
            rw [hq1]
            simpa using h

theorem foldl_trimFilter (ls : List JStr) :
    ∀ (s : St) (now : Nat), (∀ l ∈ ls, CleanLine l) →
    (ls ++ [([] : JStr)]).foldl
        (fun st l => if jsTrim l = [] then st else handleResponse st (jsTrim l) now) s
      = ls.foldl (fun st l => handleResponse st l now) s := by
  induction ls with
  | nil =>
      intro s now _
      simp only [List.nil_append, List.foldl_cons, List.foldl_nil]
      rw [if_pos (show jsTrim [] = [] from rfl)]
  | cons l t ih =>
      intro s now h
      have hc := h l (List.mem_cons_self l t)
      simp only [List.cons_append, List.foldl_cons]
      rw [jsTrim_clean l hc, if_neg hc.1]
      exact ih _ now fun x hx => h x (List.mem_cons_of_mem l hx)

/-- Delivering one chunk consisting of whole clean lines equals handling
those lines in order. -/
theorem onData_joinLines (s : St) (ls : List JStr) (now : Nat)
    (h : ∀ l ∈ ls, CleanLine l) :
    onData s (joinLines ls) now
      = ls.foldl (fun st l => handleResponse st l now) s := by
  unfold onData
  rw [splitOnChar_joinLines ls (fun l hl => (h l hl).2.2)]
  exact foldl_trimFilter ls s now h

/-- Sending while a request is pending only lengthens the queue. -/
theorem send_pending (s : St) (c : JStr) (hs : s.socket = true)
    (hp : s.pending.isSome) :
    (send s c).1 = { s with queue := s.queue ++ [c] } := by
  unfold send
  rw [hs]
  simp only [Bool.not_true, Bool.false_eq_true, if_false]
  rw [process_pending_some _ (by simpa using hp)]

/-- Sending on a quiescent connected instance writes immediately. -/
theorem send_quiescent (s : St) (c : JStr) (hs : s.socket = true)
    (hp : s.pending = none) (hq : s.queue = []) :
    (send s c).1 = { s with pending := some c, queue := [],
                            wire := s.wire ++ [c ++ [nlc]] } := by
  unfold send
  rw [hs]
  simp only [Bool.not_true, Bool.false_eq_true, if_false]
  rw [process_step _ c [] (by simp [hp]) (by rw [hq]; rfl) (by simp [hs])]

theorem sendAll_pending (cs : List JStr) :
    ∀ (s : St), s.socket = true → s.pending.isSome →
    sendAll s cs = { s with queue := s.queue ++ cs } := by
  induction cs with
  | nil => intro s _ _; simp [sendAll]
  | cons c t ih =>
      intro s hs hp
      show sendAll ((send s c).1) t = _
      rw [send_pending s c hs hp]
      rw [ih { s with queue := s.queue ++ [c] } hs (by simpa using hp)]
      simp

/-- Submitting commands to a quiescent connected instance: the first is
written at once, the rest are queued behind it. -/
theorem sendAll_quiescent (s : St) (c : JStr) (cs : List JStr)
    (hs : s.socket = true) (hp : s.pending = none) (hq : s.queue = []) :
    sendAll s (c :: cs)
      = { s with pending := some c, queue := cs,
                 wire := s.wire ++ [c ++ [nlc]] } := by
  show sendAll ((send s c).1) cs = _
  rw [send_quiescent s c hs hp hq]
  rw [sendAll_pending cs _ (by simpa using hs) (by simp)]
  simp

theorem zip_take_length (R g : List JStr) :
    R.zip g = (R.take g.length).zip g := by
  induction R generalizing g with
  | nil => simp
  | cons a t ih =>
      cases g with
      | nil => simp
      | cons b u => simp [List.zip_cons_cons, ih u]

theorem zip_flatten_split (g : List JStr) :
    ∀ (R f2 : List JStr), g.length ≤ R.length →
    R.zip (g ++ f2) = (R.take g.length).zip g ++ (R.drop g.length).zip f2 := by
  induction g with
  | nil => intro R f2 _; simp
  | cons b u ih =>
      intro R f2 hlen
      cases R with
      | nil => simp at hlen
      | cons a t =>
          simp only [List.cons_append, List.zip_cons_cons, List.length_cons,
            List.take_succ_cons, List.drop_succ_cons]
          rw [ih t f2 (by simpa using hlen)]

/-- Grouped delivery: chunk boundaries at line boundaries do not affect the
FIFO pairing of lines with requests. -/
theorem deliver_grouped (groups : List (List JStr)) :
    ∀ (times : List Nat) (s : St) (R : List JStr),
    s.socket = true →
    ((R = [] ∧ s.pending = none ∧ s.queue = []) ∨
     (∃ c cs, R = c :: cs ∧ s.pending = some c ∧ s.queue = cs)) →
    times.length = groups.length →
    (∀ l ∈ groups.flatten, CleanLine l) →
    groups.flatten.length = R.length →
    (deliverChunks s ((groups.map joinLines).zip times)).answered
      = s.answered ++ R.zip groups.flatten := by
  induction groups with
  | nil =>
      intro times s R _ hshape htimes _ hflat
      have : times = [] := List.length_eq_zero.1 htimes
      subst this
      have : R = [] := List.length_eq_zero.1 (by simpa using hflat.symm)
      subst this
      simp [deliverChunks]
  | cons g gs ih =>
      intro times s R hs hshape htimes hclean hflat
      cases times with
      | nil => simp at htimes
      | cons t ts =>
          have hcleang : ∀ l ∈ g, CleanLine l := fun l hl =>
            hclean l (by simp [hl])
          have hcleangs : ∀ l ∈ gs.flatten, CleanLine l := fun l hl =>
            hclean l (by simp [hl])
          have hstep : deliverChunks s (((g :: gs).map joinLines).zip (t :: ts))
              = deliverChunks (onData s (joinLines g) t) ((gs.map joinLines).zip ts) := rfl
          rw [hstep, onData_joinLines s g t hcleang]
          rcases hshape with ⟨hR, hp, hq⟩ | ⟨c, cs, hR, hp, hq⟩
          · subst hR
            have h2 : g.length + gs.flatten.length = 0 := by
              have h3 := hflat
              rw [List.flatten_cons, List.length_append] at h3
              simpa using h3
            have hg : g = [] := List.length_eq_zero.1 (by omega)
            subst hg
            simp only [List.foldl_nil]
            have := ih ts s [] hs (Or.inl ⟨rfl, hp, hq⟩) (by simpa using htimes)
              hcleangs (by simpa using List.length_eq_zero.2 (show gs.flatten = [] from
                List.eq_nil_of_length_eq_zero (by omega)))
            simpa using this
          · subst hR
            have h2 : g.length + gs.flatten.length = cs.length + 1 := by
              have h3 := hflat
              rw [List.flatten_cons, List.length_append] at h3
              simpa using h3
            have hglen : g.length ≤ cs.length + 1 := by omega
            obtain ⟨ha1, hs1, hnil1, hcons1⟩ :=
              deliver_lines g s c t hp hs (by rw [hq]; exact hglen)
            set r1 := g.foldl (fun st l => handleResponse st l t) s with hr1
            have hdrop : ((c :: cs).drop g.length).length = gs.flatten.length := by
              rw [List.length_drop]
              simp only [List.length_cons]
              omega
            have hshape2 : (((c :: cs).drop g.length) = [] ∧ r1.pending = none ∧ r1.queue = []) ∨
                (∃ c2 cs2, ((c :: cs).drop g.length) = c2 :: cs2 ∧
                  r1.pending = some c2 ∧ r1.queue = cs2) := by
              cases hd : (c :: cs).drop g.length with
              | nil =>
                  left
                  exact ⟨rfl, (hnil1 (by rw [hq]; exact hd)).1,
                    (hnil1 (by rw [hq]; exact hd)).2⟩
              | cons c2 cs2 =>
                  right
                  exact ⟨c2, cs2, rfl, (hcons1 c2 cs2 (by rw [hq]; exact hd)).1,
                    (hcons1 c2 cs2 (by rw [hq]; exact hd)).2⟩
            have hrec := ih ts r1 ((c :: cs).drop g.length) hs1 hshape2
              (by simpa using htimes) hcleangs hdrop.symm
            rw [hrec, ha1, hq]
            have hlen2 : g.length ≤ (c :: cs).length := by
              simp only [List.length_cons]
              omega
            rw [List.flatten_cons, zip_flatten_split g (c :: cs) gs.flatten hlen2,
              zip_take_length (c :: cs) g]
            simp [List.append_assoc]

/-- The process step preserves the single-in-flight accounting. -/
theorem inflight_process (s : St) (h : Inflight s) : Inflight (process s) := by
  unfold process
  split
  · exact h
  · next hcond =>
      simp only [Bool.or_eq_true, Bool.not_eq_true, Bool.not_eq_true',
        Bool.not_eq_false, not_or] at hcond
      obtain ⟨⟨h1, _⟩, _⟩ := hcond
      cases hq : s.queue with
      | nil => exact h
      | cons req rest =>
          unfold Inflight at h ⊢
          simp only [h1, Bool.false_eq_true, if_false] at h
          simp only [Option.isSome_some, if_true, List.length_append,
            List.length_cons, List.length_nil]
          omega

theorem inflight_send (s : St) (c : JStr) (h : Inflight s) :
    Inflight ((send s c).1) := by
  unfold send
  split
  · exact h
  · exact inflight_process _ h

theorem inflight_handleResponse (s : St) (l : JStr) (now : Nat)
    (h : Inflight s) : Inflight (handleResponse s l now) := by
  unfold handleResponse
  cases hp : s.pending with
  | none => exact h
  | some cmd =>
      simp only
      apply inflight_process
      unfold Inflight at h ⊢
      rw [hp] at h
      simp at h
      simp [applyUpdate_wire, applyUpdate_answered, applyUpdate_pending, h]

theorem inflight_onData (s : St) (chunk : JStr) (now : Nat)
    (h : Inflight s) : Inflight (onData s chunk now) := by
  unfold onData
  generalize splitOnChar nlc chunk = pieces
  induction pieces generalizing s with
  | nil => exact h
  | cons p t ih =>
      simp only [List.foldl_cons]
      by_cases hp : jsTrim p = []
      · rw [if_pos hp]
        exact ih s h
      · rw [if_neg hp]
        exact ih _ (inflight_handleResponse s (jsTrim p) now h)

theorem process_freq (s : St) : (process s).freq = s.freq := by
  unfold process
  repeat' split
  all_goals rfl

/-- Answering a pending f request with a line that parses to a positive
number stores that number as the frequency. -/
theorem handleResponse_freq_f (s : St) (line : JStr) (now : Nat)
    (hpend : s.pending = some (str "f")) (n : Int)
    (hn : jsParseInt line = some n) (hpos : 0 < n) :
    (handleResponse s line now).freq = n := by
  unfold handleResponse
  rw [hpend]
  simp only
  rw [process_freq]
  show (applyUpdate { s with pending := none } (str "f") line).freq = n
  unfold applyUpdate
  rw [if_pos rfl]
  split
  · next n2 hmatch =>
      rw [hn] at hmatch
      injection hmatch with h2
      subst h2
      rw [if_pos hpos]
  · next hmatch =>
      rw [hn] at hmatch
      cases hmatch

end Rigctld

/-- C1 (counterexample): the claim as stated fails for byte-level
chunking.  The transport delivers the correctly framed responses
145-newline 5000-newline 1-newline to the submitted commands f, m, t, but
split into the chunks "1" and "45 newline 5000 newline 1 newline"; because
the data handler keeps no partial-line buffer, the plugin pairs f with
"1", m with "45" and t with "5000" instead of pairing the three true
response lines FIFO. -/
theorem c1_chunking_counterexample :
    (str "1") ++ (str "45" ++ [nlc] ++ str "5000" ++ [nlc] ++ str "1" ++ [nlc])
        = Rigctld.joinLines [str "145", str "5000", str "1"]
    ∧ (Rigctld.deliverChunks
        (Rigctld.sendAll Rigctld.conn0 [str "f", str "m", str "t"])
        [(str "1", 0),
         (str "45" ++ [nlc] ++ str "5000" ++ [nlc] ++ str "1" ++ [nlc], 0)]).answered
      ≠ [str "f", str "m", str "t"].zip [str "145", str "5000", str "1"]
    ∧ (Rigctld.deliverChunks
        (Rigctld.sendAll Rigctld.conn0 [str "f", str "m", str "t"])
        [(str "1", 0),
         (str "45" ++ [nlc] ++ str "5000" ++ [nlc] ++ str "1" ++ [nlc], 0)]).answered
      = [(str "f", str "1"), (str "m", str "45"), (str "t", str "5000")] := by
  decide

/-- C1 (amended): at most one rigctld request is ever outstanding on the
wire (a command is written only when no response is pending, witnessed by
the preserved Inflight accounting), and for any sequence of submitted
commands, responses are paired with requests in strict FIFO order for
every chunking of the incoming response lines whose chunk boundaries fall
on line boundaries (one chunk may carry several lines, and lines may
arrive in separate reads). -/
theorem c1_rigctld_fifo_pairing (reqs : List JStr) (groups : List (List JStr))
    (times : List Nat)
    (hlen : groups.flatten.length = reqs.length)
    (htimes : times.length = groups.length)
    (hclean : ∀ l ∈ groups.flatten, Rigctld.CleanLine l) :
    (Rigctld.deliverChunks (Rigctld.sendAll Rigctld.conn0 reqs)
        ((groups.map Rigctld.joinLines).zip times)).answered
      = reqs.zip groups.flatten
    ∧ (∀ s c, Rigctld.Inflight s → Rigctld.Inflight ((Rigctld.send s c).1))
    ∧ (∀ s chunk now, Rigctld.Inflight s → Rigctld.Inflight (Rigctld.onData s chunk now))
    ∧ Rigctld.Inflight Rigctld.conn0 := by
  refine ⟨?_, fun s c h => Rigctld.inflight_send s c h,
    fun s chunk now h => Rigctld.inflight_onData s chunk now h, by decide⟩
  cases reqs with
  | nil =>
      have hflat0 : groups.flatten.length = ([] : List JStr).length := by
        simpa using hlen
      have h := Rigctld.deliver_grouped groups times Rigctld.conn0 [] rfl
        (Or.inl ⟨rfl, rfl, rfl⟩) htimes hclean hflat0
      have hflatnil : groups.flatten = [] :=
        List.eq_nil_of_length_eq_zero (by simpa using hlen)
      rw [show Rigctld.sendAll Rigctld.conn0 [] = Rigctld.conn0 from rfl, h, hflatnil]
      simp [Rigctld.conn0]
  | cons c cs =>
      rw [Rigctld.sendAll_quiescent Rigctld.conn0 c cs rfl rfl rfl]
      have h := Rigctld.deliver_grouped groups times
        ({ Rigctld.conn0 with pending := some c, queue := cs,
                              wire := Rigctld.conn0.wire ++ [c ++ [nlc]] }) (c :: cs) rfl
        (Or.inr ⟨c, cs, rfl, rfl, rfl⟩) htimes hclean (by simpa using hlen)
      rw [h]
      simp [Rigctld.conn0]

/-- C1 (witness): the commands f, m, t answered by the lines 145, 5000, 1
delivered as the two chunks (145) and (5000, 1) are paired FIFO. -/
theorem c1_rigctld_fifo_pairing_witness :
    (Rigctld.deliverChunks
        (Rigctld.sendAll Rigctld.conn0 [str "f", str "m", str "t"])
        (([[str "145"], [str "5000", str "1"]].map Rigctld.joinLines).zip [0, 0])).answered
      = [str "f", str "m", str "t"].zip ([[str "145"], [str "5000", str "1"]].flatten)
    ∧ (∀ s c, Rigctld.Inflight s → Rigctld.Inflight ((Rigctld.send s c).1))
    ∧ (∀ s chunk now, Rigctld.Inflight s → Rigctld.Inflight (Rigctld.onData s chunk now))
    ∧ Rigctld.Inflight Rigctld.conn0 :=
  c1_rigctld_fifo_pairing [str "f", str "m", str "t"]
    [[str "145"], [str "5000", str "1"]] [0, 0] (by decide) (by decide) (by decide)

/-- C3: the rigctld plugin has no deliberate-disconnect flag, so the close
event that a deliberate disconnect itself triggers schedules a reconnect
after 5000 ms — within the 10 second window the claim forbids.  An
unexpected close also schedules the 5000 ms reconnect, as the claim
states. -/
theorem c3_rigctld_deliberate_disconnect_reconnects :
    (Rigctld.disconnect Rigctld.conn0).reconnectDelay = none
    ∧ (Rigctld.onClose (Rigctld.disconnect Rigctld.conn0)).reconnectDelay = some 5000
    ∧ (Rigctld.onClose Rigctld.conn0).reconnectDelay = some 5000 := by
  decide

/-- C10: commands issued to the rigctld plugin without a socket are
dropped atomically — the state (queue included) is unchanged and the
callback, when one is supplied, receives the Not-connected error — while
the FlexRadio client in the same situation queues the command for later
instead. -/
theorem c10_rigctld_disconnected_drop (s : Rigctld.St) (h : s.socket = false) :
    (∀ c, Rigctld.send s c = (s, some (str "Not connected")))
    ∧ (∀ hz, Rigctld.setFreq s hz = s)
    ∧ (∀ m, Rigctld.setMode s m = s)
    ∧ (∀ b, Rigctld.setPTT s b = s)
    ∧ (∀ (fs : FlexRadio.St) (cmd : JStr) (hb : Bool), fs.connected = false →
        FlexRadio.sendCommand fs cmd hb
          = { fs with commandQueue := fs.commandQueue ++ [(cmd, hb)] }) := by
  have hsend : ∀ c, Rigctld.send s c = (s, some (str "Not connected")) := by
    intro c
    unfold Rigctld.send
    rw [h]
    simp
  refine ⟨hsend, ?_, ?_, ?_, ?_⟩
  · intro hz
    unfold Rigctld.setFreq
    rw [hsend]
  · intro m
    unfold Rigctld.setMode
    rw [hsend]
  · intro b
    unfold Rigctld.setPTT
    rw [hsend]
  · intro fs cmd hb hc
    unfold FlexRadio.sendCommand
    rw [hc]
    simp

/-- C10 (witness): a disconnected rigctld instance drops an f command and
a setFreq, while the FlexRadio client queues a command sent before its
handle arrives. -/
theorem c10_rigctld_disconnected_drop_witness :
    Rigctld.send (Rigctld.disconnect Rigctld.conn0) (str "f")
      = (Rigctld.disconnect Rigctld.conn0, some (str "Not connected"))
    ∧ Rigctld.setFreq (Rigctld.disconnect Rigctld.conn0) 14074000
      = Rigctld.disconnect Rigctld.conn0
    ∧ FlexRadio.sendCommand FlexRadio.conn0 (str "xmit 1") false
      = { FlexRadio.conn0 with
          commandQueue := FlexRadio.conn0.commandQueue ++ [(str "xmit 1", false)] } :=
  ⟨(c10_rigctld_disconnected_drop (Rigctld.disconnect Rigctld.conn0) (by decide)).1 (str "f"),
   (c10_rigctld_disconnected_drop (Rigctld.disconnect Rigctld.conn0) (by decide)).2.1 14074000,
   (c10_rigctld_disconnected_drop (Rigctld.disconnect Rigctld.conn0) (by decide)).2.2.2.2
     FlexRadio.conn0 (str "xmit 1") false (by decide)⟩

/-- C2: switchPlugin first disconnects any active instance (the disconnect
call is logged before any other lifecycle call, and a throwing disconnect
is swallowed so the transition is total) and clears the active reference;
a falsy or none id leaves no active plugin, as does an unknown id or a
throwing factory or connect; otherwise exactly the new instance is active.
The active instance is a single optional field, so at most one instance is
ever active. -/
theorem c2_switchPlugin_spec (r : Registry.St) (id : JStr) :
    (∀ inst, r.activeInstance = some inst →
      ∃ tail, (Registry.switchPlugin r id).calls
        = r.calls ++ Registry.CallEv.disconnectCall inst.pid :: tail)
    ∧ ((id = [] ∨ id = str "none") →
        (Registry.switchPlugin r id).activeInstance = none)
    ∧ (¬(id = [] ∨ id = str "none") →
        Registry.lookupDescriptor r.descriptors id = none →
        (Registry.switchPlugin r id).activeInstance = none)
    ∧ (∀ beh, ¬(id = [] ∨ id = str "none") →
        Registry.lookupDescriptor r.descriptors id = some beh →
        ((beh.createThrows = true ∨ beh.connectThrows = true) →
          (Registry.switchPlugin r id).activeInstance = none)
        ∧ (beh.createThrows = false → beh.connectThrows = false →
            (Registry.switchPlugin r id).activeInstance = some ⟨id, beh⟩
            ∧ (Registry.switchPlugin r id).activeId = some id)) := by
  have hdesc : (Registry.disconnectActive r).descriptors = r.descriptors := by
    unfold Registry.disconnectActive
    cases r.activeInstance <;> rfl
  have hdenone : (Registry.disconnectActive r).activeInstance = none := by
    unfold Registry.disconnectActive
    cases hA : r.activeInstance with
    | none => exact hA
    | some inst => rfl
  have hcalls : ∀ inst, r.activeInstance = some inst →
      (Registry.disconnectActive r).calls
        = r.calls ++ [Registry.CallEv.disconnectCall inst.pid] := by
    intro inst hinst
    unfold Registry.disconnectActive
    rw [hinst]
  refine ⟨?_, ?_, ?_, ?_⟩
  · intro inst hinst
    unfold Registry.switchPlugin
    rw [hdesc]
    split
    · exact ⟨[], by rw [hcalls inst hinst]⟩
    · split
      · exact ⟨[], by rw [hcalls inst hinst]⟩
      · next beh hbeh =>
          split
          · exact ⟨[Registry.CallEv.createCall id], by
              show (Registry.disconnectActive r).calls ++ _ = _
              rw [hcalls inst hinst]; simp⟩
          · split
            · exact ⟨[Registry.CallEv.createCall id, Registry.CallEv.connectCall id], by
                show (Registry.disconnectActive r).calls ++ _ = _
                rw [hcalls inst hinst]; simp⟩
            · exact ⟨[Registry.CallEv.createCall id, Registry.CallEv.connectCall id], by
                show (Registry.disconnectActive r).calls ++ _ = _
                rw [hcalls inst hinst]; simp⟩
  · intro hid
    unfold Registry.switchPlugin
    rw [if_pos (by rcases hid with h | h <;> simp [h])]
    exact hdenone
  · intro hid hno
    unfold Registry.switchPlugin
    rw [if_neg (by simpa using hid), hdesc, hno]
    exact hdenone
  · intro beh hid hbeh
    constructor
    · intro hthrow
      unfold Registry.switchPlugin
      rw [if_neg (by simpa using hid), hdesc]
      split
      · next heq =>
          rw [hbeh] at heq
          simp at heq
      · next beh2 heq =>
          rw [hbeh] at heq
          injection heq with h2
          subst h2
          rcases hthrow with h | h
          · rw [if_pos h]
          · by_cases hc : beh.createThrows = true
            · rw [if_pos hc]
            · rw [if_neg hc, if_pos h]
    · intro hc hk
      unfold Registry.switchPlugin
      rw [if_neg (by simpa using hid), hdesc]
      constructor
      · show (match Registry.lookupDescriptor r.descriptors id with
          | none => Registry.disconnectActive r
          | some beh =>
              if beh.createThrows then
                { Registry.disconnectActive r with
                  calls := (Registry.disconnectActive r).calls
                    ++ [Registry.CallEv.createCall id],
                  activeInstance := none, activeId := none }
              else if beh.connectThrows then
                { Registry.disconnectActive r with
                  calls := (Registry.disconnectActive r).calls
                    ++ [Registry.CallEv.createCall id, Registry.CallEv.connectCall id],
                  activeInstance := none, activeId := none }
              else
                { Registry.disconnectActive r with
                  activeInstance := some ⟨id, beh⟩, activeId := some id,
                  calls := (Registry.disconnectActive r).calls
                    ++ [Registry.CallEv.createCall id, Registry.CallEv.connectCall id] }).activeInstance
          = some ⟨id, beh⟩
        rw [hbeh]
        simp only
        rw [if_neg (by simp [hc]), if_neg (by simp [hk])]
      · show (match Registry.lookupDescriptor r.descriptors id with
          | none => Registry.disconnectActive r
          | some beh =>
              if beh.createThrows then
                { Registry.disconnectActive r with
                  calls := (Registry.disconnectActive r).calls
                    ++ [Registry.CallEv.createCall id],
                  activeInstance := none, activeId := none }
              else if beh.connectThrows then
                { Registry.disconnectActive r with
                  calls := (Registry.disconnectActive r).calls
                    ++ [Registry.CallEv.createCall id, Registry.CallEv.connectCall id],
                  activeInstance := none, activeId := none }
              else
                { Registry.disconnectActive r with
                  activeInstance := some ⟨id, beh⟩, activeId := some id,
                  calls := (Registry.disconnectActive r).calls
                    ++ [Registry.CallEv.createCall id, Registry.CallEv.connectCall id] }).activeId
          = some id
        rw [hbeh]
        simp only
        rw [if_neg (by simp [hc]), if_neg (by simp [hk])]

/-- C2 (witness): switching a registry holding an active mock instance to
a registered well-behaved rigctld descriptor activates exactly that
instance. -/
theorem c2_switchPlugin_spec_witness :
    ((Registry.switchPlugin
        ⟨[(str "rigctld", ⟨false, false, false⟩)],
         some ⟨str "mock", ⟨false, false, false⟩⟩, some (str "mock"), []⟩
        (str "rigctld")).activeInstance
      = some ⟨str "rigctld", ⟨false, false, false⟩⟩)
    ∧ ((Registry.switchPlugin
        ⟨[(str "rigctld", ⟨false, false, false⟩)],
         some ⟨str "mock", ⟨false, false, false⟩⟩, some (str "mock"), []⟩
        (str "rigctld")).activeId = some (str "rigctld")) :=
  ((c2_switchPlugin_spec
      ⟨[(str "rigctld", ⟨false, false, false⟩)],
       some ⟨str "mock", ⟨false, false, false⟩⟩, some (str "mock"), []⟩
      (str "rigctld")).2.2.2 ⟨false, false, false⟩ (by decide) (by decide)).2 rfl rfl

/-- C4 (counterexample): the round trip fails at the claimed boundary
freq equal to 0.  After a poll stored 7000000, setFreq applied to 0 writes
F-space-0 to the wire, but when the next f poll answers with the decimal
text 0 the guard freq-greater-than-0 in handleResponse drops the update,
so /status still reports 7000000 instead of 0. -/
theorem c4_setFreq_zero_counterexample :
    (Rigctld.setFreq
        (Rigctld.handleResponse ((Rigctld.send Rigctld.conn0 (str "f")).1)
          (str "7000000") 1) 0).wire
      = [str "f" ++ [nlc], str "F 0" ++ [nlc]]
    ∧ (Server.statusOf
        (Rigctld.handleResponse
          ((Rigctld.send
            (Rigctld.handleResponse
              (Rigctld.setFreq
                (Rigctld.handleResponse ((Rigctld.send Rigctld.conn0 (str "f")).1)
                  (str "7000000") 1) 0)
              (str "RPRT 0") 2)
            (str "f")).1)
          (str "0") 3)).freq = 7000000 := by
  decide

/-- C4 (amended): for every freq at least 1, setFreq on a quiescent
connected rigctld instance writes exactly F-space-decimal-newline to the
socket, and once the command is acknowledged and the next f poll answers
with the decimal text of freq, the shared state and hence /status report
exactly that frequency. -/
theorem c4_rigctld_setFreq_roundtrip (hz : Nat) (h1 : 1 ≤ hz) (s : Rigctld.St)
    (hs : s.socket = true) (hp : s.pending = none) (hq : s.queue = [])
    (ack : JStr) (n1 n2 : Nat) :
    (Rigctld.setFreq s hz).wire = s.wire ++ [str "F " ++ natToChars hz ++ [nlc]]
    ∧ (Server.statusOf
        (Rigctld.handleResponse
          ((Rigctld.send (Rigctld.handleResponse (Rigctld.setFreq s hz) ack n1)
              (str "f")).1)
          (natToChars hz) n2)).freq = (hz : Int) := by
  have hsend1 := Rigctld.send_quiescent s (str "F " ++ natToChars hz) hs hp hq
  constructor
  · show ((Rigctld.send s (str "F " ++ natToChars hz)).1).wire = _
    rw [hsend1]
  · have hstep2 := Rigctld.handleResponse_step
      ((Rigctld.send s (str "F " ++ natToChars hz)).1)
      (str "F " ++ natToChars hz) ack n1 (by rw [hsend1]) (by rw [hsend1]; exact hs)
    obtain ⟨_, hs2sock, hnil2, _⟩ := hstep2
    obtain ⟨hp2, hq2, _⟩ := hnil2 (by rw [hsend1])
    have hsend3 := Rigctld.send_quiescent
      (Rigctld.handleResponse ((Rigctld.send s (str "F " ++ natToChars hz)).1) ack n1)
      (str "f") hs2sock hp2 hq2
    show (Rigctld.handleResponse
        ((Rigctld.send (Rigctld.handleResponse
            ((Rigctld.send s (str "F " ++ natToChars hz)).1) ack n1) (str "f")).1)
        (natToChars hz) n2).freq = (hz : Int)
    rw [Rigctld.handleResponse_freq_f _ (natToChars hz) n2 (by rw [hsend3])
      (hz : Int) (jsParseInt_natToChars hz) (by exact_mod_cast h1)]

/-- C4 (witness): the concrete scenario from the spec, frequency
14074000. -/
theorem c4_rigctld_setFreq_roundtrip_witness :
    (Rigctld.setFreq Rigctld.conn0 14074000).wire
      = Rigctld.conn0.wire ++ [str "F " ++ natToChars 14074000 ++ [nlc]]
    ∧ (Server.statusOf
        (Rigctld.handleResponse
          ((Rigctld.send
              (Rigctld.handleResponse (Rigctld.setFreq Rigctld.conn0 14074000)
                (str "RPRT 0") 5)
              (str "f")).1)
          (natToChars 14074000) 6)).freq = (14074000 : Int) :=
  c4_rigctld_setFreq_roundtrip 14074000 (by decide) Rigctld.conn0 rfl rfl rfl
    (str "RPRT 0") 5 6

/-- C5 (counterexample): with pttEnabled false, a request whose ptt value
is falsy (false, or the field absent) is not rejected: the endpoint
answers success and dispatches setPTT false to the active plugin, contrary
to the claim that every request is rejected with 403 and nothing
dispatched while the gate is off. -/
theorem c5_ptt_falsy_counterexample :
    Server.postPtt false (some false)
      = (⟨200, Server.RespBody.success⟩, some false)
    ∧ Server.postPtt false none
      = (⟨200, Server.RespBody.success⟩, some false) := by
  decide

/-- C5 (amended): POST /ptt answers 403 with no dispatch exactly when the
requested ptt value is truthy while pttEnabled is false; in every other
case (gate on, or a falsy ptt value) it answers success and dispatches
setPTT with the double-negated body value. -/
theorem c5_ptt_gate (pttEnabled : Bool) (ptt : Option Bool) :
    (Server.truthyBool ptt = true → pttEnabled = false →
      Server.postPtt pttEnabled ptt
        = (⟨403, Server.RespBody.errorMsg (str "PTT disabled in configuration")⟩, none))
    ∧ (pttEnabled = true →
        Server.postPtt pttEnabled ptt
          = (⟨200, Server.RespBody.success⟩, some (Server.truthyBool ptt)))
    ∧ (Server.truthyBool ptt = false →
        Server.postPtt pttEnabled ptt
          = (⟨200, Server.RespBody.success⟩, some false)) := by
  refine ⟨?_, ?_, ?_⟩
  · intro h1 h2
    simp [Server.postPtt, h1, h2]
  · intro h1
    simp [Server.postPtt, h1]
  · intro h1
    simp [Server.postPtt, h1]

/-- C5 (witness): a truthy PTT request against a disabled gate is
rejected with 403 and nothing is dispatched. -/
theorem c5_ptt_gate_witness :
    Server.postPtt false (some true)
      = (⟨403, Server.RespBody.errorMsg (str "PTT disabled in configuration")⟩, none) :=
  (c5_ptt_gate false (some true)).1 (by decide) rfl

/-- C6 (counterexample): a freq field that is present with the value 0 —
a Hz integer at least 0 — is rejected with 400 and nothing is dispatched,
because the handler tests JS falsiness rather than field presence. -/
theorem c6_freq_zero_counterexample :
    Server.postFreq (some 0)
      = (⟨400, Server.RespBody.errorMsg (str "Missing freq")⟩, none) := by
  decide

/-- C6 (amended): POST /freq answers 400 exactly when the freq field is
missing or falsy (0); any other integer is dispatched with a success
answer.  POST /mode answers 400 exactly when the mode field is missing or
the empty string; any other string is dispatched with a success answer. -/
theorem c6_freq_mode_validation (freq : Option Int) (mode : Option JStr) :
    ((Server.postFreq freq).1.status = 400 ↔ (freq = none ∨ freq = some 0))
    ∧ ((Server.postFreq freq).2 = none ↔ (Server.postFreq freq).1.status = 400)
    ∧ (∀ n : Int, n ≠ 0 →
        Server.postFreq (some n) = (⟨200, Server.RespBody.success⟩, some n))
    ∧ ((Server.postMode mode).1.status = 400 ↔ (mode = none ∨ mode = some []))
    ∧ ((Server.postMode mode).2 = none ↔ (Server.postMode mode).1.status = 400)
    ∧ (∀ m : JStr, m ≠ [] →
        Server.postMode (some m) = (⟨200, Server.RespBody.success⟩, some m)) := by
  refine ⟨?_, ?_, ?_, ?_, ?_, ?_⟩
  · cases freq with
    | none => simp [Server.postFreq, Server.truthyNum]
    | some n =>
        by_cases hn : n = 0 <;> simp [Server.postFreq, Server.truthyNum, hn]
  · cases freq with
    | none => simp [Server.postFreq, Server.truthyNum]
    | some n =>
        by_cases hn : n = 0 <;> simp [Server.postFreq, Server.truthyNum, hn]
  · intro n hn
    simp [Server.postFreq, Server.truthyNum, hn]
  · cases mode with
    | none => simp [Server.postMode, Server.truthyStr]
    | some m =>
        by_cases hm : m = [] <;> simp [Server.postMode, Server.truthyStr, hm]
  · cases mode with
    | none => simp [Server.postMode, Server.truthyStr]
    | some m =>
        by_cases hm : m = [] <;> simp [Server.postMode, Server.truthyStr, hm]
  · intro m hm
    simp [Server.postMode, Server.truthyStr, hm]

/-- C6 (witness): a present non-zero frequency and a non-empty mode are
dispatched with success answers. -/
theorem c6_freq_mode_validation_witness :
    Server.postFreq (some 14074000)
      = (⟨200, Server.RespBody.success⟩, some 14074000)
    ∧ Server.postMode (some (str "USB"))
      = (⟨200, Server.RespBody.success⟩, some (str "USB")) :=
  ⟨(c6_freq_mode_validation (some 14074000) (some (str "USB"))).2.2.1 14074000 (by decide),
   (c6_freq_mode_validation (some 14074000) (some (str "USB"))).2.2.2.2.2 (str "USB")
     (by decide)⟩

/-- C8: the FlexRadio command queue is never flushed.  A command submitted
before the handle is assigned (here the client identification sent on TCP
connect) is queued; when the H line arrives the client becomes connected
and subscribes to its slice wrapped as C1-bar-sub-slice-0, but the queued
command is still in the queue and never appears on the wire, contrary to
the claim (and to the connection flow documented at the top of
flexradio.js). -/
theorem c8_flex_queue_not_flushed :
    (FlexRadio.sendClientIdentification FlexRadio.conn0).commandQueue
      = [(str "client program OpenHamClock", true)]
    ∧ (FlexRadio.sendClientIdentification FlexRadio.conn0).wire = []
    ∧ (FlexRadio.handleData (FlexRadio.sendClientIdentification FlexRadio.conn0)
        (str "H12345678" ++ [nlc])).connected = true
    ∧ (FlexRadio.handleData (FlexRadio.sendClientIdentification FlexRadio.conn0)
        (str "H12345678" ++ [nlc])).handle = some (str "12345678")
    ∧ (FlexRadio.handleData (FlexRadio.sendClientIdentification FlexRadio.conn0)
        (str "H12345678" ++ [nlc])).commandQueue
      = [(str "client program OpenHamClock", true)]
    ∧ (FlexRadio.handleData (FlexRadio.sendClientIdentification FlexRadio.conn0)
        (str "H12345678" ++ [nlc])).wire
      = [str "C1|sub slice 0" ++ [nlc]]
    ∧ (∀ (fs : FlexRadio.St) (cmd : JStr) (hb : Bool),
        fs.socket = true → fs.connected = true →
        (FlexRadio.sendCommand fs cmd hb).sequenceNumber = fs.sequenceNumber + 1
        ∧ (FlexRadio.sendCommand fs cmd hb).wire
          = fs.wire ++ [str "C" ++ natToChars (fs.sequenceNumber + 1) ++ str "|"
              ++ cmd ++ [nlc]]) := by
  refine ⟨by decide, by decide, by decide, by decide, by decide, by decide, ?_⟩
  intro fs cmd hb h1 h2
  unfold FlexRadio.sendCommand
  rw [h1, h2]
  simp

/-- C8 (witness): the sequence-wrapping conjunct evaluated on a connected
client. -/
theorem c8_flex_queue_not_flushed_witness :
    (FlexRadio.sendCommand
        ({ FlexRadio.conn0 with connected := true }) (str "xmit 1") false).sequenceNumber
      = ({ FlexRadio.conn0 with connected := true } : FlexRadio.St).sequenceNumber + 1
    ∧ (FlexRadio.sendCommand
        ({ FlexRadio.conn0 with connected := true }) (str "xmit 1") false).wire
      = ({ FlexRadio.conn0 with connected := true } : FlexRadio.St).wire
          ++ [str "C" ++ natToChars
                (({ FlexRadio.conn0 with connected := true } : FlexRadio.St).sequenceNumber + 1)
              ++ str "|" ++ str "xmit 1" ++ [nlc]] :=
  c8_flex_queue_not_flushed.2.2.2.2.2.2
    ({ FlexRadio.conn0 with connected := true }) (str "xmit 1") false rfl rfl

namespace Usb

/-- Scanning past a semicolon-free prefix only accumulates it. -/
theorem processAux_pass (l : JStr) : ∀ (acc r : JStr) (iy : Bool), ';' ∉ l →
    processAsciiBufferAux iy acc (l ++ r)
      = processAsciiBufferAux iy (l.reverse ++ acc) r := by
  induction l with
  | nil => intro acc r iy _; simp
  | cons a t ih =>
      intro acc r iy hl
      have ha : a ≠ ';' := fun h => hl (h ▸ List.mem_cons_self a t)
      have ht : ';' ∉ t := fun h => hl (List.mem_cons_of_mem a h)
      show processAsciiBufferAux iy acc (a :: (t ++ r)) = _
      simp only [processAsciiBufferAux]
      rw [if_neg ha, ih (a :: acc) r iy ht, List.reverse_cons, List.append_assoc]
      rfl

/-- A complete unit before the first semicolon is emitted after the
start-offset drop. -/
theorem processAux_unit (iy : Bool) (u rest2 : JStr) (hu : ';' ∉ u) :
    processAsciiBufferAux iy [] (u ++ ';' :: rest2)
      = ((u.drop (startOf iy u)) :: (processAsciiBufferAux iy [] rest2).1,
         (processAsciiBufferAux iy [] rest2).2) := by
  rw [processAux_pass u [] (';' :: rest2) iy hu]
  simp only [processAsciiBufferAux, List.append_nil]
  simp [List.reverse_reverse]

/-- A semicolon-free leftover under the buffer cap stays in the buffer. -/
theorem processAux_leftover (iy : Bool) (restb : JStr) (hr : ';' ∉ restb)
    (hlen : restb.length ≤ 1000) :
    processAsciiBufferAux iy [] restb = ([], restb) := by
  have h := processAux_pass restb [] [] iy hr
  rw [List.append_nil] at h
  rw [h]
  simp only [processAsciiBufferAux, List.append_nil, List.reverse_reverse]
  rw [if_neg (by omega)]

end Usb

/-- C7 (counterexample): a unit consisting of the single garbled byte I
followed by the valid command FA123 is not parsed as FA123: the scan
matches the known prefix IF at position 0 (formed by the garbled byte and
the first command character) and passes the unit through unchanged. -/
theorem c7_yaesu_prefix_counterexample :
    (Usb.processAsciiBuffer true (str "IFA123;")).1 = [str "IFA123"]
    ∧ str "IFA123" = 'I' :: str "FA123"
    ∧ ['F'.toUpper, 'A'.toUpper] ∈ Usb.YAESU_CMDS
    ∧ (Usb.processAsciiBuffer true (str "IFA123;")).1 ≠ [str "FA123"] := by
  decide

/-- C7 (amended): every complete semicolon-terminated unit in the receive
buffer is extracted as one response, in order, with the leftover kept
buffered, and processing is a total function.  For the Yaesu family each
unit is emitted from the first position whose next two characters,
upper-cased, form a known command prefix (unchanged when no known prefix
occurs before the terminator, and always unchanged for the non-Yaesu
families); consequently a unit with a single garbled leading byte is
parsed as the valid command that follows it provided the garbled byte does
not itself form a known prefix with the first command character. -/
theorem c7_ascii_framing (isYaesu : Bool) (units : List JStr) (rest : JStr)
    (hu : ∀ u ∈ units, ';' ∉ u) (hr : ';' ∉ rest) (hlen : rest.length ≤ 1000) :
    Usb.processAsciiBuffer isYaesu (Usb.joinUnits units rest)
      = (units.map (fun u => u.drop (Usb.startOf isYaesu u)), rest)
    ∧ (∀ u : JStr, Usb.startOf false u = 0)
    ∧ (∀ (g a b : Char) (t : JStr), [a.toUpper, b.toUpper] ∈ Usb.YAESU_CMDS →
        [g.toUpper, a.toUpper] ∉ Usb.YAESU_CMDS →
        (g :: a :: b :: t).drop (Usb.startOf true (g :: a :: b :: t)) = a :: b :: t)
    ∧ (∀ u : JStr, Usb.findCmdStart u = none → u.drop (Usb.startOf true u) = u) := by
  refine ⟨?_, ?_, ?_, ?_⟩
  · induction units generalizing rest with
    | nil =>
        unfold Usb.processAsciiBuffer Usb.joinUnits
        simp only [List.map_nil, List.flatten_nil, List.nil_append]
        exact Usb.processAux_leftover isYaesu rest hr hlen
    | cons u us ih =>
        have hju : Usb.joinUnits (u :: us) rest = u ++ ';' :: Usb.joinUnits us rest := by
          unfold Usb.joinUnits
          rw [List.map_cons, List.flatten_cons, List.append_assoc, List.append_assoc]
          rfl
        unfold Usb.processAsciiBuffer
        rw [hju, Usb.processAux_unit isYaesu u _ (hu u (List.mem_cons_self u us))]
        have hrec := ih rest (fun x hx => hu x (List.mem_cons_of_mem u hx)) hr hlen
        unfold Usb.processAsciiBuffer at hrec
        rw [hrec]
        simp
  · intro u
    simp [Usb.startOf]
  · intro g a b t hab hga
    have hf : Usb.findCmdStart (g :: a :: b :: t) = some 1 := by
      show (if [g.toUpper, a.toUpper] ∈ Usb.YAESU_CMDS then some 0
            else (Usb.findCmdStart (a :: b :: t)).map (· + 1)) = some 1
      rw [if_neg hga]
      have h2 : Usb.findCmdStart (a :: b :: t) = some 0 := by
        show (if [a.toUpper, b.toUpper] ∈ Usb.YAESU_CMDS then some 0
              else (Usb.findCmdStart (b :: t)).map (· + 1)) = some 0
        rw [if_pos hab]
      rw [h2]
      rfl
    simp [Usb.startOf, hf]
  · intro u h
    simp [Usb.startOf, h]

/-- C7 (witness): a buffer holding a unit with one garbled leading byte, a
clean unit and a trailing fragment is parsed into the recovered command,
the clean unit, and the fragment stays buffered. -/
theorem c7_ascii_framing_witness :
    Usb.processAsciiBuffer true (Usb.joinUnits [str "xFA014074000", str "IF123"] (str "tail"))
      = ([str "xFA014074000", str "IF123"].map
          (fun u => u.drop (Usb.startOf true u)), str "tail")
    ∧ (∀ u : JStr, Usb.startOf false u = 0)
    ∧ (∀ (g a b : Char) (t : JStr), [a.toUpper, b.toUpper] ∈ Usb.YAESU_CMDS →
        [g.toUpper, a.toUpper] ∉ Usb.YAESU_CMDS →
        (g :: a :: b :: t).drop (Usb.startOf true (g :: a :: b :: t)) = a :: b :: t)
    ∧ (∀ u : JStr, Usb.findCmdStart u = none → u.drop (Usb.startOf true u) = u) :=
  c7_ascii_framing true [str "xFA014074000", str "IF123"] (str "tail")
    (by decide) (by decide) (by decide)

/-- C9: the TCI switch statement updates state only for the configured
pair: VFO emits a frequency event exactly when both parsed trx and vfo
arguments equal the configured pair, MODULATION and TRX emit mode and PTT
events exactly when the parsed trx matches, the three informational
commands append to the log and change nothing else, and an unrecognised
command leaves the state untouched. -/
theorem c9_tci_handleCommand_filtering (s : TCI.St) (args : List JStr)
    (command : JStr) :
    (TCI.handleCommand s (str "VFO") args
      = (if TCI.parseIntAt args 0 = some (s.trx : Int)
            ∧ TCI.parseIntAt args 1 = some (s.vfo : Int)
         then { s with events := s.events ++ [TCI.Ev.frequency (TCI.parseIntAt args 2)] }
         else s))
    ∧ (TCI.handleCommand s (str "MODULATION") args
      = (if TCI.parseIntAt args 0 = some (s.trx : Int)
         then { s with events := s.events ++ [TCI.Ev.modeEv (args.get? 1)] }
         else s))
    ∧ (TCI.handleCommand s (str "TRX") args
      = (if TCI.parseIntAt args 0 = some (s.trx : Int)
         then { s with events := s.events ++ [TCI.Ev.ptt (args.get? 1 = some (str "true"))] }
         else s))
    ∧ (∀ c2 ∈ [str "TRX_COUNT", str "VFO_LIMITS", str "MODULATIONS_LIST"],
        TCI.handleCommand s c2 args = { s with logs := s.logs ++ [(c2, args)] })
    ∧ (command ∉ [str "PROTOCOL", str "DEVICE", str "VFO", str "MODULATION",
          str "TRX", str "TRX_COUNT", str "VFO_LIMITS", str "MODULATIONS_LIST"] →
        TCI.handleCommand s command args = s) := by
  refine ⟨?_, ?_, ?_, ?_, ?_⟩
  · unfold TCI.handleCommand
    rw [if_neg (by decide), if_neg (by decide), if_pos rfl]
  · unfold TCI.handleCommand
    rw [if_neg (by decide), if_neg (by decide), if_neg (by decide), if_pos rfl]
  · unfold TCI.handleCommand
    rw [if_neg (by decide), if_neg (by decide), if_neg (by decide),
      if_neg (by decide), if_pos rfl]
  · intro c2 hc2
    simp only [List.mem_cons, List.not_mem_nil, or_false] at hc2
    rcases hc2 with h | h | h <;> subst h <;>
      (unfold TCI.handleCommand
       rw [if_neg (by decide), if_neg (by decide), if_neg (by decide),
         if_neg (by decide), if_neg (by decide)])
    · rw [if_pos rfl]
    · rw [if_neg (by decide), if_pos rfl]
    · rw [if_neg (by decide), if_neg (by decide), if_pos rfl]
  · intro hno
    unfold TCI.handleCommand
    rw [if_neg (fun h => hno (by rw [h]; decide)),
      if_neg (fun h => hno (by rw [h]; decide)),
      if_neg (fun h => hno (by rw [h]; decide)),
      if_neg (fun h => hno (by rw [h]; decide)),
      if_neg (fun h => hno (by rw [h]; decide)),
      if_neg (fun h => hno (by rw [h]; decide)),
      if_neg (fun h => hno (by rw [h]; decide)),
      if_neg (fun h => hno (by rw [h]; decide))]

/-- C9 (witness): on a client configured for trx 0 and vfo 0, a matching
VFO command emits the frequency and an unknown command is ignored. -/
theorem c9_tci_handleCommand_filtering_witness :
    TCI.handleCommand
        ⟨0, 0, none, none, [], []⟩ (str "NOPE") [str "1"]
      = (⟨0, 0, none, none, [], []⟩ : TCI.St) :=
  (c9_tci_handleCommand_filtering ⟨0, 0, none, none, [], []⟩ [str "1"]
      (str "NOPE")).2.2.2.2 (by decide)

end OpenHamClock
